import Mathlib

/-!
Verification of the AutoRia crawl-and-extraction engine.

This file gives a shallow embedding, in Lean 4, of the pure logic of the
scraper found under app/scraper/ (parser.py, scraper.py,
enhanced_playwright_scraper.py), and proves the spec-level properties about
it.  HTML access is modelled abstractly: a page is represented by the
results the CSS selectors of the source would return on it (the selector
strings themselves carry no logic), while string processing (regexes,
strip, lower, startswith) is embedded faithfully, character by character.
Fallible operations return Option; database sessions become explicit store
values threaded through the functions.
-/

/-! ### String helpers shared by the embedded functions -/

/-- Whitespace as matched by the Python regex class \s and str.strip()
for the ASCII range (space, tab, newline, carriage return, vertical tab,
form feed). -/
def isPySpace (c : Char) : Bool :=
  c == ' ' || c == '\t' || c == '\n' || c == '\r' || c == '\x0b' || c == '\x0c'

/-- Python str.strip(): drop whitespace from both ends. -/
def pyStrip (l : List Char) : List Char :=
  ((l.dropWhile isPySpace).reverse.dropWhile isPySpace).reverse

/-- Python str.lower() restricted to ASCII letters plus the Cyrillic
letters that occur in the regex patterns of parser.py
(Т, И, С, Ы, К, М). -/
def lowerPy (c : Char) : Char :=
  if c = 'Т' then 'т' else if c = 'И' then 'и' else if c = 'С' then 'с'
  else if c = 'Ы' then 'ы' else if c = 'К' then 'к' else if c = 'М' then 'м'
  else c.toLower

/-- Numeric value of a list of decimal digit characters, as Python
int() on a digit string (Python integers are unbounded, as is Nat). -/
def digitsToNat (l : List Char) : Nat :=
  l.foldl (fun n c => n * 10 + (c.toNat - '0'.toNat)) 0

/-- Association-list lookup, modelling an external key-value environment
(the network, a fixture of pages). -/
def assocFind {α : Type} (w : List (String × α)) (k : String) : Option α :=
  match w with
  | [] => none
  | (k₀, v) :: rest => if k₀ = k then some v else assocFind rest k

/-! ### format_phone_number (parser.py lines 335-346)

The source:
```
phone_text = re.sub(r'[^\d+]', '', phone_text)
if phone_text and not phone_text.startswith('+'):
    phone_text = '+' + phone_text
if phone_text and not phone_text.startswith('+38'):
    phone_text = '+38' + phone_text.lstrip('+')
return phone_text
```
The two sequential if statements are embedded as phoneStep1 and phoneStep2
over the already-filtered character list.
-/

/-- Characters kept by the substitution re.sub(r'[^\d+]', '', s):
decimal digits and the plus sign. -/
def keepPhoneChar (c : Char) : Bool := c.isDigit || c == '+'

/-- First rewrite: prepend a plus sign to a nonempty number that lacks
one. -/
def phoneStep1 (t : List Char) : List Char :=
  if t.isEmpty then t
  else if t.head? = some '+' then t
  else '+' :: t

/-- Second rewrite: force the +38 country prefix, stripping any leading
plus signs of the old value first (str.lstrip). -/
def phoneStep2 (t : List Char) : List Char :=
  if t.isEmpty then t
  else if ['+', '3', '8'].isPrefixOf t then t
  else '+' :: '3' :: '8' :: t.dropWhile (fun c => c == '+')

/-- Embedding of parser.format_phone_number. -/
def format_phone_number (s : String) : String :=
  String.mk (phoneStep2 (phoneStep1 (s.toList.filter keepPhoneChar)))

/-- The output shape asserted by the spec: a single leading plus sign
followed by digits only. -/
def plusThenDigits (l : List Char) : Bool :=
  match l with
  | c :: rest => c == '+' && rest.all Char.isDigit
  | [] => false

/-- The spec shape together with the country-code prefix +38. -/
def plusDigits38 (l : List Char) : Bool :=
  plusThenDigits l && ['+', '3', '8'].isPrefixOf l

/-- C9 (counterexample): on the input "12+34" the normalizer keeps the
interior plus sign: it returns "+3812+34", which is not a plus sign
followed by digits only, refuting the claim as a statement about every
input string. -/
theorem phone_interior_plus_cex :
    format_phone_number "12+34" = "+3812+34" ∧
    plusThenDigits (format_phone_number "12+34").toList = false := by
  constructor <;> decide

/-- Helper: the claimed shape holds for any list of the form
plus, three, eight, digits. -/
theorem plusDigits38_cons38 (P : List Char) (h : P.all Char.isDigit = true) :
    plusDigits38 ('+' :: '3' :: '8' :: P) = true := by
  simp [plusDigits38, plusThenDigits, List.isPrefixOf, h]

/-- Helper: phoneStep2 produces the claimed +38 digits shape whenever its
input starts with a plus sign and has digits only after its leading run of
plus signs. -/
theorem phoneStep2_plus (us : List Char)
    (h : (('+' :: us).dropWhile (fun c => c == '+')).all Char.isDigit = true) :
    plusDigits38 (phoneStep2 ('+' :: us)) = true := by
  have hdrop : (('+' :: us).dropWhile (fun c => c == '+'))
      = us.dropWhile (fun c => c == '+') := by
    simp [List.dropWhile_cons]
  rw [hdrop] at h
  by_cases hp : ['+', '3', '8'].isPrefixOf ('+' :: us) = true
  · have hpre : ['+', '3', '8'] <+: ('+' :: us) := by simpa using hp
    obtain ⟨r, hr⟩ := hpre
    simp only [List.cons_append, List.nil_append, List.cons.injEq, true_and] at hr
    subst hr
    have h8 : ('3' :: '8' :: r).all Char.isDigit = true := by
      simpa [List.dropWhile_cons] using h
    simp [phoneStep2, hp, plusDigits38, plusThenDigits, h8]
  · have hstep : phoneStep2 ('+' :: us)
        = '+' :: '3' :: '8' :: us.dropWhile (fun c => c == '+') := by
      simp [phoneStep2, hp, List.dropWhile_cons]
    rw [hstep]
    exact plusDigits38_cons38 _ h

/-- Helper: shape of the full pipeline on a nonempty cleaned list whose
plus signs all sit in front of its digits. -/
theorem phoneCore_shape (t : List Char)
    (h1 : (t.dropWhile (fun c => c == '+')).all Char.isDigit = true)
    (h2 : t ≠ []) :
    plusDigits38 (phoneStep2 (phoneStep1 t)) = true := by
  match t, h2 with
  | c :: cs, _ =>
    by_cases hc : c = '+'
    · subst hc
      have hs : phoneStep1 ('+' :: cs) = '+' :: cs := by simp [phoneStep1]
      rw [hs]
      exact phoneStep2_plus cs h1
    · have hs : phoneStep1 (c :: cs) = '+' :: c :: cs := by
        simp [phoneStep1, hc]
      have hd : ((c :: cs).dropWhile (fun x => x == '+')) = c :: cs := by
        simp [List.dropWhile_cons, hc]
      rw [hd] at h1
      rw [hs]
      apply phoneStep2_plus
      simpa [List.dropWhile_cons, hc] using h1

/-- C9 (amended): for every input string whose kept characters (digits
and plus signs) are nonempty and carry all their plus signs in front of
the digits, format_phone_number returns a single leading plus sign
followed by digits only, starting with the country code +38. -/
theorem phone_normal_shape (s : String)
    (h1 : ((s.toList.filter keepPhoneChar).dropWhile (fun c => c == '+')).all
      Char.isDigit = true)
    (h2 : s.toList.filter keepPhoneChar ≠ []) :
    plusDigits38 (format_phone_number s).toList = true := by
  have hl : (format_phone_number s).toList
      = phoneStep2 (phoneStep1 (s.toList.filter keepPhoneChar)) := rfl
  rw [hl]
  exact phoneCore_shape _ h1 h2

/-- C9 (witness): the amended statement evaluated on a concrete local
phone string. -/
theorem phone_normal_shape_witness :
    ((("067 123 45 67").toList.filter keepPhoneChar).dropWhile
      (fun c => c == '+')).all Char.isDigit = true ∧
    plusDigits38 (format_phone_number "067 123 45 67").toList = true :=
  ⟨by decide, phone_normal_shape "067 123 45 67" (by decide) (by decide)⟩

/-- C10: for every input string containing no digit and no plus
character, format_phone_number returns the empty string, so an absent
phone value stays absent. -/
theorem phone_no_digits_empty (s : String)
    (h : ∀ c ∈ s.toList, ¬(c.isDigit = true ∨ c = '+')) :
    format_phone_number s = "" := by
  have hf : s.toList.filter keepPhoneChar = [] := by
    rw [List.filter_eq_nil_iff]
    intro a ha
    have h' := h a ha
    simp only [keepPhoneChar, Bool.or_eq_true, beq_iff_eq]
    exact h'
  show String.mk (phoneStep2 (phoneStep1 (s.toList.filter keepPhoneChar))) = ""
  rw [hf]
  decide

/-- C10 (witness): a concrete string with neither digits nor plus signs
normalizes to the empty string. -/
theorem phone_no_digits_empty_witness :
    (∀ c ∈ ("abc- ").toList, ¬(c.isDigit = true ∨ c = '+')) ∧
    format_phone_number "abc- " = "" :=
  ⟨by decide, phone_no_digits_empty "abc- " (by decide)⟩

/-! ### extract_odometer (parser.py lines 136-172) -/

/-- Python substring containment (the in operator) on character lists. -/
def hasSubSeq (pat : List Char) : List Char → Bool
  | [] => pat.isPrefixOf []
  | c :: rest => pat.isPrefixOf (c :: rest) || hasSubSeq pat rest

/-- One attempt of the regex (\d+)\s*(?:тис|тыс)\.?\s*км at the head of an
already lowercased character list: a nonempty digit run, optional
whitespace, a thousands marker, an optional dot, optional whitespace and
the km unit. -/
def kmMatchAt (l : List Char) : Option Nat :=
  let ds := l.takeWhile Char.isDigit
  if ds.isEmpty then none
  else
    let r2 := (l.dropWhile Char.isDigit).dropWhile isPySpace
    match r2 with
    | 'т' :: x :: 'с' :: r3 =>
      if x = 'и' ∨ x = 'ы' then
        let r4 := match r3 with
          | '.' :: r => r
          | r => r
        if ['к', 'м'].isPrefixOf (r4.dropWhile isPySpace) then
          some (digitsToNat ds)
        else none
      else none
    | _ => none

/-- The search of the thousands-of-km pattern over a lowercased list:
every start position is tried, leftmost match first (parser.py lines 144
and 167 use re.search). -/
def kmSearch (l : List Char) : Option Nat :=
  match l with
  | [] => none
  | _ :: rest =>
    match kmMatchAt l with
    | some n => some n
    | none => kmSearch rest

/-- The km regex applied to a character list with the IGNORECASE flag,
modelled by lowercasing first. -/
def kmNumberL (l : List Char) : Option Nat :=
  kmSearch (l.map lowerPy)

/-- Abstraction of a page as seen by extract_odometer: the text of the
first li.item-char.js-race element when present, the text of the first
.base-information .size18 element together with the text of its parent
when present, and the text nodes of the whole document (scanned by the
last-resort find_all). -/
structure OdometerPage where
  raceText : Option String
  size18 : Option (String × String)
  docStrings : List String
deriving DecidableEq

/-- Last-resort branch of extract_odometer (lines 163-169): the first
document string containing the thousands-of-km pattern yields its leading
integer times 1000. -/
def odometerFromDocStrings (p : OdometerPage) : Option Nat :=
  p.docStrings.findSome? (fun t => (kmNumberL t.toList).map (· * 1000))

/-- Detail-layout branch of extract_odometer (lines 148-161): the digits
of the .size18 text (int() of an empty digit string raises ValueError,
which the enclosing try turns into None, skipping the later branches),
multiplied by 1000 exactly when the lowercased parent text contains the
thousands marker. -/
def odometerFromSize18 (p : OdometerPage) : Option Nat :=
  match p.size18 with
  | some (txt, container) =>
    let ds := txt.toList.filter Char.isDigit
    if ds.isEmpty then none
    else
      let v := digitsToNat ds
      if hasSubSeq ['т', 'и', 'с'] ((pyStrip container.toList).map lowerPy) then
        some (v * 1000)
      else some v
  | none => odometerFromDocStrings p

/-- Embedding of parser.extract_odometer: listing-layout element first
(multiply by 1000 on a thousands match, otherwise fall through), then the
detail-layout element, then the free-text scan. -/
def extract_odometer (p : OdometerPage) : Option Nat :=
  match p.raceText with
  | some t =>
    match kmNumberL (pyStrip t.toList) with
    | some n => some (n * 1000)
    | none => odometerFromSize18 p
  | none => odometerFromSize18 p

/-- Fixture: a listing-layout page whose odometer text carries the
thousands marker. -/
def pageThousandsKm : OdometerPage :=
  { raceText := some "120 тис. км", size18 := none, docStrings := [] }

/-- Fixture: a detail-layout page whose odometer text has no thousands
marker. -/
def pagePlainKm : OdometerPage :=
  { raceText := none, size18 := some ("120 км", "120 км"), docStrings := [] }

/-- C5: odometer text "120 тис. км" yields 120000 (leading integer times
1000 due to the thousands marker), odometer text "120 км" without the
marker yields 120 unmultiplied, and the two fixtures are distinguishable
pages. -/
theorem odometer_thousands_marker :
    extract_odometer pageThousandsKm = some 120000 ∧
    extract_odometer pagePlainKm = some 120 ∧
    pageThousandsKm ≠ pagePlainKm :=
  ⟨by decide, by decide, by decide⟩

/-! ### extract_car_vin (parser.py lines 367-394) -/

/-- Child content of the .label-vin element: an svg icon, a tooltip popup,
or a text fragment. BeautifulSoup .text concatenates the strings of every
node that has not been decomposed. -/
inductive VinNode
  | svgNode (s : String)
  | popupNode (s : String)
  | textNode (s : String)
deriving DecidableEq

/-- Model of vin_element.find('svg') followed by decompose(): the first
svg child disappears. -/
def removeFirstSvg : List VinNode → List VinNode
  | [] => []
  | VinNode.svgNode _ :: rest => rest
  | n :: rest => n :: removeFirstSvg rest

/-- Model of vin_element.select_one('.popup') followed by decompose():
the first popup child disappears. -/
def removeFirstPopup : List VinNode → List VinNode
  | [] => []
  | VinNode.popupNode _ :: rest => rest
  | n :: rest => n :: removeFirstPopup rest

/-- Concatenated text of the remaining nodes. -/
def nodesText (ns : List VinNode) : List Char :=
  ns.foldr
    (fun n acc =>
      match n with
      | VinNode.svgNode s => s.toList ++ acc
      | VinNode.popupNode s => s.toList ++ acc
      | VinNode.textNode s => s.toList ++ acc)
    []

/-- Character class [A-HJ-NPR-Z0-9] of the VIN regex, with re.IGNORECASE
admitting lowercase ASCII letters too (I, O and Q stay excluded). -/
def isVinChar (c : Char) : Bool :=
  let u := c.toUpper
  ('A' ≤ u && u ≤ 'H') || ('J' ≤ u && u ≤ 'N') || u == 'P' ||
    ('R' ≤ u && u ≤ 'Z') || c.isDigit

/-- One attempt of the 17-character VIN pattern at the head of the list. -/
def vinMatchAt (l : List Char) : Option (List Char) :=
  let w := l.take 17
  if w.length = 17 && w.all isVinChar then some w else none

/-- re.search of the VIN pattern: the leftmost window of 17 consecutive
VIN-alphabet characters. -/
def vinSearch (l : List Char) : Option (List Char) :=
  match l with
  | [] => none
  | _ :: rest =>
    match vinMatchAt l with
    | some w => some w
    | none => vinSearch rest

/-- Cleaned, stripped text of the .label-vin element after the svg and
popup removals. -/
def labelVinText (nodes : List VinNode) : List Char :=
  pyStrip (nodesText (removeFirstPopup (removeFirstSvg nodes)))

/-- Embedding of parser.extract_car_vin: none when the .label-vin element
is absent; otherwise the first 17-character VIN token of the cleaned text
when one exists, else the raw trimmed text. -/
def extract_car_vin (labelVin : Option (List VinNode)) : Option String :=
  match labelVin with
  | none => none
  | some nodes =>
    let t := labelVinText nodes
    match vinSearch t with
    | some w => some (String.mk w)
    | none => some (String.mk t)

/-- Fixture: a .label-vin element whose VIN token sits between an icon
and a tooltip popup. -/
def vinElemDecorated : List VinNode :=
  [VinNode.svgNode "check-icon", VinNode.textNode " WBAAA1234AAA56789 ",
   VinNode.popupNode "Перевірено"]

/-- C6: on an element whose text holds the token WBAAA1234AAA56789
surrounded by decorative markup, extraction returns exactly that
17-character token with the decorations stripped; and on any element
whose cleaned text has no 17-character VIN pattern, the raw trimmed text
is returned instead. -/
theorem vin_extraction :
    extract_car_vin (some vinElemDecorated) = some "WBAAA1234AAA56789" ∧
    ∀ nodes, vinSearch (labelVinText nodes) = none →
      extract_car_vin (some nodes) = some (String.mk (labelVinText nodes)) := by
  refine ⟨by decide, ?_⟩
  intro nodes h
  simp [extract_car_vin, h]

/-- Fixture: a .label-vin element carrying no 17-character pattern. -/
def vinElemNoVin : List VinNode := [VinNode.textNode " VIN відсутній "]

/-- C6 (witness): the no-pattern branch evaluated on a concrete element. -/
theorem vin_extraction_witness :
    vinSearch (labelVinText vinElemNoVin) = none ∧
    extract_car_vin (some vinElemNoVin)
      = some (String.mk (labelVinText vinElemNoVin)) :=
  ⟨by decide, vin_extraction.2 vinElemNoVin (by decide)⟩

/-! ### parse_car_listing_page (parser.py lines 12-105)

A listing item element is abstracted by what the five URL lookups of the
source would find on it; a listing page by the element lists the eight
selectors of selectors_to_try would return, in order, plus the links the
regex fallback of line 89 would find in the raw HTML.
-/

/-- One matched listing element: its tag name, its own href, and the
results of the four nested lookups (first descendant a with an auto_
href, first descendant with a data-link-to-view attribute, first
a.address descendant, first .ticket-photo a descendant). The two outer
Option layers for address and photo links distinguish an absent element
from an element whose href attribute is missing. -/
structure ListingElement where
  tagName : String
  href : Option String
  innerAutoLink : Option String
  dataLinkToView : Option String
  addressLink : Option (Option String)
  photoLink : Option (Option String)
deriving DecidableEq

/-- Truthiness-and-containment test of line 50: the element href is
non-None, nonempty and mentions auto_. -/
def hrefIsAutoLink (h? : Option String) : Bool :=
  match h? with
  | some h => !h.toList.isEmpty && hasSubSeq ("auto_".toList) h.toList
  | none => false

/-- URL resolution chain of lines 47-72, in source order; None both when
no lookup hits and when a found element lacks the attribute. -/
def resolveCarUrl (e : ListingElement) : Option String :=
  if e.tagName == "a" && hrefIsAutoLink e.href then e.href
  else
    match e.innerAutoLink with
    | some h => some h
    | none =>
      match e.dataLinkToView with
      | some v => some v
      | none =>
        match e.addressLink with
        | some h? => h?
        | none =>
          match e.photoLink with
          | some h? => h?
          | none => none

/-- Lines 76-77: urljoin against the fixed base https://auto.ria.com,
restricted to the URL shapes the site produces (an absolute URL is kept,
a protocol-relative one gets the scheme, everything else resolves against
the bare origin). -/
def absolutize (u : String) : String :=
  if ("http".toList).isPrefixOf u.toList then u
  else if ("//".toList).isPrefixOf u.toList then "https:" ++ u
  else if ("/".toList).isPrefixOf u.toList then "https://auto.ria.com" ++ u
  else "https://auto.ria.com/" ++ u

/-- Resolution followed by the truthiness guard of line 75 and
absolutization. -/
def resolveAbs (e : ListingElement) : Option String :=
  match resolveCarUrl e with
  | some u => if u = "" then none else some (absolutize u)
  | none => none

/-- Guarded append of lines 79-80: add a URL unless already collected. -/
def addUnique (acc : List String) (u : String) : List String :=
  if u ∈ acc then acc else acc ++ [u]

/-- Per-element body of the selector loop. -/
def processListingElement (acc : List String) (e : ListingElement) : List String :=
  match resolveAbs e with
  | some u => addUnique acc u
  | none => acc

/-- A listing page as parse_car_listing_page observes it. -/
structure ListingPage where
  selectorResults : List (List ListingElement)
  regexLinks : List String
deriving DecidableEq

/-- Selector loop of lines 39-83: every selector of selectors_to_try is
evaluated and every element found contributes; there is no break after a
selector matches (the if-elements guard of line 43 only skips empty
iteration). -/
def collectLinks (p : ListingPage) : List String :=
  p.selectorResults.foldl (fun acc elems => elems.foldl processListingElement acc) []

/-- Embedding of parser.parse_car_listing_page. The final
list(set(car_links)) of line 97 permutes a list that is already free of
duplicates, every append being guarded by a membership test; it is
modelled as the identity, which has the same element set, length and
duplicate-freeness, the only aspects the spec claims (order is explicitly
unspecified). -/
def parse_car_listing_page (p : ListingPage) : List String :=
  let links := collectLinks p
  if links.isEmpty then
    p.regexLinks.foldl (fun acc u => addUnique acc (absolutize u)) []
  else links

/-- Counterpart of the listing extractor as the spec words it, for
comparison only: the first selector pattern that yields any matches wins
and later selectors contribute nothing. -/
def firstSelectorParse (p : ListingPage) : List String :=
  let links :=
    match p.selectorResults.find? (fun elems => !elems.isEmpty) with
    | some elems => elems.foldl processListingElement []
    | none => []
  if links.isEmpty then
    p.regexLinks.foldl (fun acc u => addUnique acc (absolutize u)) []
  else links

/-- The URLs discovered across all selectors, with multiplicity, in
order. -/
def discoveredUrls (p : ListingPage) : List String :=
  p.selectorResults.foldr (fun es acc => es.filterMap resolveAbs ++ acc) []

/-- Helper: one selector's inner loop is the guarded-append fold of its
resolvable URLs. -/
theorem foldl_process_eq (es : List ListingElement) : ∀ acc : List String,
    es.foldl processListingElement acc
      = (es.filterMap resolveAbs).foldl addUnique acc := by
  induction es with
  | nil => intro acc; rfl
  | cons e rest ih =>
    intro acc
    cases he : resolveAbs e with
    | some u => simp [List.foldl_cons, List.filterMap_cons, he,
        processListingElement, ih]
    | none => simp [List.foldl_cons, List.filterMap_cons, he,
        processListingElement, ih]

/-- Helper: the outer selector loop, from any accumulator, is the
guarded-append fold of the concatenated per-selector URL lists. -/
theorem collect_go (L : List (List ListingElement)) : ∀ acc : List String,
    L.foldl (fun acc elems => elems.foldl processListingElement acc) acc
      = (L.foldr (fun es a => es.filterMap resolveAbs ++ a) []).foldl addUnique acc := by
  induction L with
  | nil => intro acc; rfl
  | cons es rest ih =>
    intro acc
    simp only [List.foldl_cons, List.foldr_cons, List.foldl_append]
    rw [foldl_process_eq, ih]

/-- Helper: the whole selector loop is the guarded-append fold of all
discovered URLs. -/
theorem collectLinks_eq (p : ListingPage) :
    collectLinks p = (discoveredUrls p).foldl addUnique [] :=
  collect_go p.selectorResults []

/-- Helper: membership in a guarded-append fold. -/
theorem mem_foldl_addUnique (l : List String) : ∀ (acc : List String) (x : String),
    x ∈ l.foldl addUnique acc ↔ x ∈ acc ∨ x ∈ l := by
  induction l with
  | nil => simp
  | cons u us ih =>
    intro acc x
    rw [List.foldl_cons, ih]
    by_cases hu : u ∈ acc
    · simp only [addUnique, if_pos hu, List.mem_cons]
      constructor
      · rintro (h | h)
        · exact Or.inl h
        · exact Or.inr (Or.inr h)
      · rintro (h | rfl | h)
        · exact Or.inl h
        · exact Or.inl hu
        · exact Or.inr h
    · simp [addUnique, if_neg hu, or_assoc]

/-- Helper: a guarded-append fold never creates duplicates. -/
theorem nodup_foldl_addUnique (l : List String) :
    ∀ acc : List String, acc.Nodup → (l.foldl addUnique acc).Nodup := by
  induction l with
  | nil => intro acc h; exact h
  | cons u us ih =>
    intro acc h
    rw [List.foldl_cons]
    apply ih
    by_cases hu : u ∈ acc
    · simpa [addUnique, hu] using h
    · simp only [addUnique, if_neg hu]
      simp [List.nodup_append, h, hu]

/-- Helper: the element set of a guarded-append fold. -/
theorem toFinset_foldl_addUnique (l acc : List String) :
    (l.foldl addUnique acc).toFinset = acc.toFinset ∪ l.toFinset := by
  ext x
  simp [mem_foldl_addUnique]

/-- Helper: a guarded-append fold from nil has exactly one entry per
distinct input URL. -/
theorem length_foldl_addUnique (l : List String) :
    (l.foldl addUnique []).length = l.dedup.length := by
  have h1 := nodup_foldl_addUnique l [] List.nodup_nil
  have h2 : (l.foldl addUnique []).toFinset = l.toFinset := by
    rw [toFinset_foldl_addUnique]
    simp
  calc (l.foldl addUnique []).length
      = (l.foldl addUnique []).toFinset.card := (List.toFinset_card_of_nodup h1).symm
    _ = l.toFinset.card := by rw [h2]
    _ = l.dedup.length := List.card_toFinset l

/-- C1: on a listing page whose item blocks resolve to N distinct detail
URLs (N positive: each well-formed block carries exactly one resolvable
link), parse_car_listing_page returns exactly N URLs with no
duplicates. -/
theorem listing_unique_count (p : ListingPage) (N : Nat) (hN : 0 < N)
    (hd : (discoveredUrls p).dedup.length = N) :
    (parse_car_listing_page p).Nodup ∧ (parse_car_listing_page p).length = N := by
  have hc : collectLinks p = (discoveredUrls p).foldl addUnique [] := collectLinks_eq p
  have hlen : (collectLinks p).length = N := by
    rw [hc, length_foldl_addUnique, hd]
  have hne : (collectLinks p).isEmpty = false := by
    rw [List.isEmpty_eq_false]
    intro h0
    rw [h0] at hlen
    simp at hlen
    omega
  have hp : parse_car_listing_page p = collectLinks p := by
    simp [parse_car_listing_page, hne]
  constructor
  · rw [hp, hc]
    exact nodup_foldl_addUnique _ _ List.nodup_nil
  · rw [hp]
    exact hlen

/-- Fixture: an item block linking to the audi detail page. -/
def blockAudi : ListingElement :=
  { tagName := "section", href := none,
    innerAutoLink := some "/auto_audi_1.html", dataLinkToView := none,
    addressLink := none, photoLink := none }

/-- Fixture: an item block linking to the bmw detail page. -/
def blockBmw : ListingElement :=
  { tagName := "section", href := none,
    innerAutoLink := some "/auto_bmw_2.html", dataLinkToView := none,
    addressLink := none, photoLink := none }

/-- Fixture: both blocks matched by the first selector. -/
def pageTwoItems : ListingPage :=
  { selectorResults := [[blockAudi, blockBmw], [], [], [], [], [], [], []],
    regexLinks := [] }

/-- Fixture: the first selector matches one block, the second selector a
different block. -/
def pageTwoSelectors : ListingPage :=
  { selectorResults := [[blockAudi], [blockBmw], [], [], [], [], [], []],
    regexLinks := [] }

/-- C1 (witness): the unique-count statement evaluated on a concrete
two-item page. -/
theorem listing_unique_count_witness :
    0 < 2 ∧ (discoveredUrls pageTwoItems).dedup.length = 2 ∧
    ((parse_car_listing_page pageTwoItems).Nodup ∧
      (parse_car_listing_page pageTwoItems).length = 2) :=
  ⟨by decide, by decide, listing_unique_count pageTwoItems 2 (by decide) (by decide)⟩

/-- C4 (counterexample): on a page whose first selector matches an
element, the second selector still contributes a URL: the source output
holds both links, while the first-match-wins reading of the spec would
stop after the audi link. -/
theorem selector_chain_cex :
    pageTwoSelectors.selectorResults.head? = some [blockAudi] ∧
    parse_car_listing_page pageTwoSelectors
      = ["https://auto.ria.com/auto_audi_1.html",
         "https://auto.ria.com/auto_bmw_2.html"] ∧
    firstSelectorParse pageTwoSelectors
      = ["https://auto.ria.com/auto_audi_1.html"] := by
  refine ⟨by decide, by decide, by decide⟩

/-- C4 (amended): every selector of the chain is evaluated and every
resolvable URL any of them discovers appears in the output (deduplicated);
the regex fallback contributes only when the selector loop found
nothing. -/
theorem all_selectors_contribute (p : ListingPage)
    (h : collectLinks p ≠ []) :
    parse_car_listing_page p = collectLinks p ∧
    ∀ u ∈ discoveredUrls p, u ∈ parse_car_listing_page p := by
  have hne : (collectLinks p).isEmpty = false := by
    rw [List.isEmpty_eq_false]
    exact h
  have hp : parse_car_listing_page p = collectLinks p := by
    simp [parse_car_listing_page, hne]
  refine ⟨hp, ?_⟩
  intro u hu
  rw [hp, collectLinks_eq]
  exact (mem_foldl_addUnique _ _ _).mpr (Or.inr hu)

/-- C4 (witness): the amended statement evaluated on the two-selector
page. -/
theorem all_selectors_contribute_witness :
    collectLinks pageTwoSelectors ≠ [] ∧
    parse_car_listing_page pageTwoSelectors = collectLinks pageTwoSelectors :=
  ⟨by decide, (all_selectors_contribute pageTwoSelectors (by decide)).1⟩

/-! ### save_car_data (scraper.py lines 102-123) and the persisted store

The Car model (app/db/models.py) keys records by a unique URL column; a
record is abstracted to its URL plus representative payload fields. The
database session becomes an explicit value; every session.add followed by
commit is recorded in an insert log so that the number of insert calls
per URL is observable.
-/

/-- A scraped record (the fields beyond the URL key stand in for the rest
of the Car columns). -/
structure CarData where
  url : String
  title : String
  priceUsd : Option Nat
deriving DecidableEq

/-- The store: committed rows plus the log of insert calls. -/
structure DB where
  rows : List CarData
  insertLog : List String
deriving DecidableEq

/-- The initially empty store. -/
def dbEmpty : DB := { rows := [], insertLog := [] }

/-- The select-by-URL existence check (select(Car).where(Car.url == u)). -/
def dbExists (db : DB) (u : String) : Bool :=
  db.rows.any (fun c => c.url == u)

/-- session.add followed by commit: appends the row and logs the insert. -/
def dbInsert (c : CarData) (db : DB) : DB :=
  { rows := db.rows ++ [c], insertLog := db.insertLog ++ [c.url] }

/-- Embedding of scraper.save_car_data: a select by URL, then an insert
only when no row with that URL exists. -/
def save_car_data (c : CarData) (db : DB) : DB :=
  if dbExists db c.url then db else dbInsert c db

/-- One run of the persist stage over the records extracted from a fixed
body of listing and detail content, in discovery order. -/
def runPipeline (recs : List CarData) (db : DB) : DB :=
  recs.foldl (fun d c => save_car_data c d) db

/-- Helper: existence after an insert. -/
theorem dbExists_insert (c : CarData) (db : DB) (u : String) :
    dbExists (dbInsert c db) u = (dbExists db u || c.url == u) := by
  simp [dbExists, dbInsert, List.any_append]

/-- Helper: saving never removes an existing URL. -/
theorem dbExists_save_mono (c : CarData) (db : DB) (u : String)
    (h : dbExists db u = true) : dbExists (save_car_data c db) u = true := by
  cases hx : dbExists db c.url
  · simp [save_car_data, hx, dbExists_insert, h]
  · simp [save_car_data, hx, h]

/-- Helper: a pipeline run never removes an existing URL. -/
theorem run_exists_mono (recs : List CarData) : ∀ (db : DB) (u : String),
    dbExists db u = true → dbExists (runPipeline recs db) u = true := by
  induction recs with
  | nil => intro db u h; exact h
  | cons c rest ih =>
    intro db u h
    exact ih _ _ (dbExists_save_mono c db u h)

/-- Helper: after a run, every processed URL exists. -/
theorem run_mem_exists (recs : List CarData) : ∀ (db : DB) (c : CarData),
    c ∈ recs → dbExists (runPipeline recs db) c.url = true := by
  induction recs with
  | nil => intro db c h; cases h
  | cons c0 rest ih =>
    intro db c h
    rcases List.mem_cons.mp h with rfl | hr
    · show dbExists (runPipeline rest (save_car_data c db)) c.url = true
      apply run_exists_mono
      cases hx : dbExists db c.url
      · simp [save_car_data, hx, dbExists_insert]
      · simp [save_car_data, hx]
    · exact ih _ _ hr

/-- Helper: a run over records whose URLs all exist already is a no-op. -/
theorem run_noop (recs : List CarData) : ∀ db : DB,
    (∀ c ∈ recs, dbExists db c.url = true) → runPipeline recs db = db := by
  induction recs with
  | nil => intro db _; rfl
  | cons c0 rest ih =>
    intro db h
    have h0 : dbExists db c0.url = true := h c0 (List.mem_cons_self _ _)
    show runPipeline rest (save_car_data c0 db) = db
    rw [show save_car_data c0 db = db by simp [save_car_data, h0]]
    exact ih db (fun c hc => h c (List.mem_cons_of_mem _ hc))

/-- Helper: a run over fresh, pairwise-distinct URLs inserts one row
each. -/
theorem run_length_fresh (recs : List CarData) : ∀ db : DB,
    (recs.map CarData.url).Nodup → (∀ c ∈ recs, dbExists db c.url = false) →
    (runPipeline recs db).rows.length = db.rows.length + recs.length := by
  induction recs with
  | nil => intro db _ _; rfl
  | cons c0 rest ih =>
    intro db hnd hf
    have h0 : dbExists db c0.url = false := hf c0 (List.mem_cons_self _ _)
    rw [List.map_cons] at hnd
    have hnd0 := List.nodup_cons.mp hnd
    have hf' : ∀ c ∈ rest, dbExists (dbInsert c0 db) c.url = false := by
      intro c hc
      rw [dbExists_insert]
      have h1 : dbExists db c.url = false := hf c (List.mem_cons_of_mem _ hc)
      have h2 : (c0.url == c.url) = false := by
        rw [beq_eq_false_iff_ne]
        intro he
        exact hnd0.1 (he ▸ List.mem_map_of_mem CarData.url hc)
      simp [h1, h2]
    show (runPipeline rest (save_car_data c0 db)).rows.length
      = db.rows.length + (c0 :: rest).length
    rw [show save_car_data c0 db = dbInsert c0 db by simp [save_car_data, h0]]
    rw [ih _ hnd0.2 hf']
    simp [dbInsert]
    omega

/-- C2: persisting the N records of a fixed body of content (N distinct
URLs) into an empty store yields N rows, a second identical run changes
nothing, and saving a record whose URL already exists performs no second
insert. -/
theorem pipeline_idempotent (recs : List CarData) (N : Nat)
    (h1 : (recs.map CarData.url).Nodup) (h2 : recs.length = N) :
    (runPipeline recs dbEmpty).rows.length = N ∧
    runPipeline recs (runPipeline recs dbEmpty) = runPipeline recs dbEmpty ∧
    ∀ (c : CarData) (db : DB), dbExists db c.url = true → save_car_data c db = db := by
  refine ⟨?_, ?_, ?_⟩
  · rw [run_length_fresh recs dbEmpty h1 (fun c _ => by simp [dbExists, dbEmpty])]
    simp [dbEmpty, h2]
  · exact run_noop recs _ (fun c hc => run_mem_exists recs dbEmpty c hc)
  · intro c db h
    simp [save_car_data, h]

/-- Fixture: a first record. -/
def carA : CarData :=
  { url := "https://auto.ria.com/auto_audi_1.html", title := "Audi 2020",
    priceUsd := some 15000 }

/-- Fixture: a second record with a different URL. -/
def carB : CarData :=
  { url := "https://auto.ria.com/auto_bmw_2.html", title := "BMW 2019",
    priceUsd := some 18000 }

/-- C2 (witness): the idempotence statement evaluated on two concrete
records. -/
theorem pipeline_idempotent_witness :
    (([carA, carB]).map CarData.url).Nodup ∧
    (runPipeline [carA, carB] dbEmpty).rows.length = 2 ∧
    runPipeline [carA, carB] (runPipeline [carA, carB] dbEmpty)
      = runPipeline [carA, carB] dbEmpty :=
  ⟨by decide, (pipeline_idempotent [carA, carB] 2 (by decide) (by decide)).1,
    (pipeline_idempotent [carA, carB] 2 (by decide) (by decide)).2.1⟩

/-! ### process_car_page and the item dispatch loop
(enhanced_playwright_scraper.py lines 707-762 and 906-925)

process_car_page extracts the ad id from the URL (regex
auto_([^.]+)\.html), returns early when the URL is already stored, and
otherwise fetches, parses and inserts. The network and the parser are
abstracted into a world mapping a detail URL to Option CarData (none for
a fetch or parse failure, a missing key likewise). Its own try/except
catches every internal error, so the embedded function is total, and the
dispatch loop of run_enhanced_playwright_scraper increments
processed_tickets after every call that returns. -/

/-- One attempt of the regex auto_([^.]+)\.html at the head of the list:
the literal prefix, a maximal nonempty run without dots (the group), then
the literal .html. -/
def carIdMatchAt (l : List Char) : Option (List Char) :=
  if ("auto_".toList).isPrefixOf l then
    let rest := l.drop 5
    let run := rest.takeWhile (fun c => c != '.')
    if run.isEmpty then none
    else if (".html".toList).isPrefixOf (rest.drop run.length) then some run
    else none
  else none

/-- re.search of the ad-id pattern over the URL. -/
def carIdSearch (l : List Char) : Option (List Char) :=
  match l with
  | [] => none
  | _ :: rest =>
    match carIdMatchAt l with
    | some r => some r
    | none => carIdSearch rest

/-- Embedding of enhanced process_car_page: no ad id means an early
return, a URL already stored means an early return before any fetch, and
otherwise the record obtained from the world (when fetch and parse
succeed) is inserted. -/
def process_car_page (world : List (String × Option CarData))
    (carUrl : String) (db : DB) : DB :=
  match carIdSearch carUrl.toList with
  | none => db
  | some _ =>
    if dbExists db carUrl then db
    else
      match assocFind world carUrl with
      | some (some cd) => dbInsert cd db
      | _ => db

/-- The per-page item dispatch loop (lines 906-925): stop at the ticket
quota, otherwise dispatch the next link and advance the counter (the
per-item try/except only logs, and process_car_page never raises, so the
increment follows every dispatch). -/
def dispatchItems (world : List (String × Option CarData)) (maxT : Nat) :
    List String → DB → Nat → DB × Nat
  | [], db, t => (db, t)
  | u :: rest, db, t =>
    if maxT ≤ t then (db, t)
    else dispatchItems world maxT rest (process_car_page world u db) (t + 1)

/-- C3: dispatching a URL already known to the store below the ticket
quota leaves the store untouched (no second insert for that URL), while
the loop still advances the item counter for that dispatch. -/
theorem skip_no_second_insert (world : List (String × Option CarData))
    (u : String) (db : DB) (t maxT : Nat) (rest : List String)
    (h1 : dbExists db u = true) (h2 : t < maxT) :
    process_car_page world u db = db ∧
    dispatchItems world maxT (u :: rest) db t
      = dispatchItems world maxT rest db (t + 1) := by
  have hp : process_car_page world u db = db := by
    unfold process_car_page
    cases hcid : carIdSearch u.toList
    · rfl
    · simp [h1]
  refine ⟨hp, ?_⟩
  simp only [dispatchItems]
  rw [if_neg (by omega), hp]

/-- Fixture: the URL of the first record. -/
def knownUrl : String := "https://auto.ria.com/auto_audi_1.html"

/-- Fixture: a store already holding the first record. -/
def dbKnown : DB := { rows := [carA], insertLog := [carA.url] }

/-- C3 (witness): the skip statement evaluated on a store that already
holds the dispatched URL. -/
theorem skip_no_second_insert_witness :
    dbExists dbKnown knownUrl = true ∧ 0 < 5 ∧
    (process_car_page [] knownUrl dbKnown = dbKnown ∧
      dispatchItems [] 5 [knownUrl] dbKnown 0 = dispatchItems [] 5 [] dbKnown 1) :=
  ⟨by decide, by decide,
    skip_no_second_insert [] knownUrl dbKnown 0 5 [] (by decide) (by decide)⟩

/-- C7 (counterexample): dispatching a URL already known to the store is
a skip (no fetch, store untouched), yet the item counter advances from 0
to 1, refuting that the counter never increments on a skip. -/
theorem counter_on_skip_cex :
    dbExists dbKnown knownUrl = true ∧
    dispatchItems [] 5 [knownUrl] dbKnown 0 = (dbKnown, 1) :=
  ⟨by decide, by decide⟩

/-- C7 (amended): item handling is caught per item, so the dispatch loop
processes every link of the page up to the ticket quota (no failure
aborts the remainder), and the counter advances once per dispatched link
whether it was a success, a failure absorbed by process_car_page, or a
skip of an already-known URL. -/
theorem dispatch_counts (world : List (String × Option CarData)) (maxT : Nat) :
    ∀ (links : List String) (db : DB) (t : Nat), t ≤ maxT →
    dispatchItems world maxT links db t
      = ((links.take (maxT - t)).foldl (fun d u => process_car_page world u d) db,
        min (t + links.length) maxT) := by
  intro links
  induction links with
  | nil =>
    intro db t h
    simp [dispatchItems, Nat.min_eq_left h]
  | cons u rest ih =>
    intro db t h
    by_cases hq : maxT ≤ t
    · have ht : t = maxT := Nat.le_antisymm h hq
      simp [dispatchItems, hq, ht, Nat.sub_self,
        Nat.min_eq_right (by omega : maxT ≤ maxT + (u :: rest).length)]
    · have h1 : t + 1 ≤ maxT := by omega
      simp only [dispatchItems, if_neg hq]
      rw [ih _ _ h1]
      have htake : (u :: rest).take (maxT - t) = u :: rest.take (maxT - (t + 1)) := by
        have hs : maxT - t = (maxT - (t + 1)) + 1 := by omega
        rw [hs, List.take_succ_cons]
      rw [htake]
      have harith : t + 1 + rest.length = t + (u :: rest).length := by
        simp [List.length_cons]
        omega
      rw [List.foldl_cons, harith]

/-- C7 (witness): the amended dispatch-count statement evaluated with a
quota of 2 against three dispatches of an already-stored URL. -/
theorem dispatch_counts_witness :
    (0 : Nat) ≤ 2 ∧
    dispatchItems [] 2 [knownUrl, knownUrl, knownUrl] dbKnown 0
      = ((([knownUrl, knownUrl, knownUrl].take (2 - 0)).foldl
          (fun d u => process_car_page [] u d) dbKnown),
        min (0 + [knownUrl, knownUrl, knownUrl].length) 2) :=
  ⟨by decide, dispatch_counts [] 2 [knownUrl, knownUrl, knownUrl] dbKnown 0 (by decide)⟩

/-! ### The page-advancing loops
(scraper.py run_scraper lines 290-312 and
enhanced_playwright_scraper.py run_enhanced_playwright_scraper lines
887-939)

run_scraper walks listing pages while the current URL is truthy and the
page count is below the quota, breaking when process_listing_page yields
no next URL or the next URL equals the current one. The enhanced variant
walks while both the page and ticket quotas hold, breaking on a fetch
failure, an empty link list or a missing next URL, but carries no
same-URL guard. The remaining page budget (max pages minus pages
processed) is the structural fuel; the network is a world mapping a
listing URL to its outcome. Both functions return the listing URLs
fetched, in order. -/

/-- Outcome of process_listing_page for one URL: the next-page URL, or
none on failure or a missing pagination link. An absent key means the
same. -/
def nextOf (w : List (String × Option String)) (url : String) : Option String :=
  (assocFind w url).join

/-- Embedding of scraper.run_scraper as the sequence of listing URLs it
fetches. -/
def run_scraper (w : List (String × Option String)) :
    Nat → String → List String
  | 0, _ => []
  | fuel + 1, url =>
    if url = "" then []
    else
      url ::
        (match nextOf w url with
        | none => []
        | some nxt => if nxt = "" ∨ nxt = url then [] else run_scraper w fuel nxt)

/-- Helper: the head of a run, when present, is the starting URL. -/
theorem run_scraper_head (w : List (String × Option String))
    (fuel : Nat) (url : String) :
    (run_scraper w fuel url).head? = none ∨
    (run_scraper w fuel url).head? = some url := by
  match fuel with
  | 0 => exact Or.inl rfl
  | k + 1 =>
    by_cases hu : url = ""
    · exact Or.inl (by simp [run_scraper, hu])
    · exact Or.inr (by simp [run_scraper, hu])

/-- Helper: run_scraper never fetches the same URL at two consecutive
page steps, and is bounded by its page budget. -/
theorem run_scraper_props (w : List (String × Option String)) :
    ∀ (fuel : Nat) (url : String),
    List.Chain' (fun a b => a ≠ b) (run_scraper w fuel url) ∧
    (run_scraper w fuel url).length ≤ fuel := by
  intro fuel
  induction fuel with
  | zero => intro url; exact ⟨List.chain'_nil, by simp [run_scraper]⟩
  | succ k ih =>
    intro url
    by_cases hu : url = ""
    · constructor <;> simp [run_scraper, hu]
    · simp only [run_scraper, if_neg hu]
      cases hn : nextOf w url with
      | none => exact ⟨List.chain'_singleton url, by simp⟩
      | some nxt =>
        by_cases hstop : nxt = "" ∨ nxt = url
        · simp only [if_pos hstop]
          exact ⟨List.chain'_singleton url, by simp⟩
        · simp only [if_neg hstop]
          obtain ⟨ihc, ihl⟩ := ih nxt
          constructor
          · rw [List.chain'_cons']
            refine ⟨?_, ihc⟩
            intro b hb
            rcases run_scraper_head w k nxt with h0 | h0
            · rw [h0] at hb
              cases hb
            · rw [h0] at hb
              have hb' : nxt = b := by simpa using hb
              subst hb'
              intro he
              exact hstop (Or.inr he.symm)
          · simpa using Nat.succ_le_succ ihl

/-- Outcome of one enhanced listing fetch: the detail links found on the
page and its next-page URL (a missing key means a fetch failure). -/
structure EnhListing where
  links : List String
  nextUrl : Option String
deriving DecidableEq

/-- Embedding of run_enhanced_playwright_scraper: the listing URLs
fetched, the final store and the final ticket counter. There is no
comparison between the next URL and the current one. -/
def run_enhanced_playwright_scraper (lw : List (String × EnhListing))
    (dw : List (String × Option CarData)) (maxT : Nat) :
    Nat → String → DB → Nat → List String × DB × Nat
  | 0, _, db, t => ([], db, t)
  | fuel + 1, url, db, t =>
    if maxT ≤ t then ([], db, t)
    else
      match assocFind lw url with
      | none => ([url], db, t)
      | some L =>
        if L.links.isEmpty then ([url], db, t)
        else
          let r := dispatchItems dw maxT L.links db t
          match L.nextUrl with
          | none => ([url], r.1, r.2)
          | some nxt =>
            let rec2 := run_enhanced_playwright_scraper lw dw maxT fuel nxt r.1 r.2
            (url :: rec2.1, rec2.2.1, rec2.2.2)

/-- Helper: the enhanced page loop fetches at most its page budget. -/
theorem enh_length_le (lw : List (String × EnhListing))
    (dw : List (String × Option CarData)) (maxT : Nat) :
    ∀ (fuel : Nat) (url : String) (db : DB) (t : Nat),
    (run_enhanced_playwright_scraper lw dw maxT fuel url db t).1.length ≤ fuel := by
  intro fuel
  induction fuel with
  | zero => intro url db t; simp [run_enhanced_playwright_scraper]
  | succ k ih =>
    intro url db t
    simp only [run_enhanced_playwright_scraper]
    by_cases hq : maxT ≤ t
    · simp [hq]
    · simp only [if_neg hq]
      cases assocFind lw url with
      | none => simp
      | some L =>
        by_cases hl : L.links.isEmpty = true
        · simp [hl]
        · simp only [hl, Bool.false_eq_true, if_false]
          cases L.nextUrl with
          | none => simp
          | some nxt =>
            simpa using Nat.succ_le_succ (ih nxt _ _)

/-- Fixture: the start listing URL. -/
def listUrl : String := "https://auto.ria.com/car/used/"

/-- Fixture: a listing world whose only page names itself as its next
page. -/
def loopWorld : List (String × EnhListing) :=
  [(listUrl, { links := ["https://auto.ria.com/auto_audi_1.html"],
               nextUrl := some listUrl })]

/-- Fixture: the detail world behind the looping listing page. -/
def detailWorld : List (String × Option CarData) :=
  [("https://auto.ria.com/auto_audi_1.html", some carA)]

/-- C8 (counterexample): the enhanced orchestrator has no same-URL cycle
guard: when the resolved next-page URL equals the current one it fetches
the same listing URL again (three times under a page quota of three),
refuting that the same listing URL is never refetched as its own next
page. -/
theorem enhanced_refetch_cex :
    (run_enhanced_playwright_scraper loopWorld detailWorld 100 3 listUrl dbEmpty 0).1
      = [listUrl, listUrl, listUrl] ∧
    ¬ List.Chain' (fun a b => a ≠ b)
      (run_enhanced_playwright_scraper loopWorld detailWorld 100 3 listUrl dbEmpty 0).1 := by
  have h1 : (run_enhanced_playwright_scraper loopWorld detailWorld 100 3 listUrl dbEmpty 0).1
      = [listUrl, listUrl, listUrl] := by decide
  refine ⟨h1, ?_⟩
  rw [h1]
  intro hch
  exact (List.chain'_cons.mp hch).1 rfl

/-- C8 (amended): run_scraper stops at a missing next URL, the page
quota, or a next URL equal to the current one, and never refetches the
same listing URL as its own next page (consecutively fetched URLs always
differ); the enhanced loop is bounded by its page and ticket quotas but
lacks the same-URL guard. Both loops fetch at most max-pages listing
pages. -/
theorem page_loop_bounds (w : List (String × Option String))
    (lw : List (String × EnhListing)) (dw : List (String × Option CarData))
    (fuel maxT : Nat) (url : String) (db : DB) (t : Nat) :
    List.Chain' (fun a b => a ≠ b) (run_scraper w fuel url) ∧
    (run_scraper w fuel url).length ≤ fuel ∧
    (run_enhanced_playwright_scraper lw dw maxT fuel url db t).1.length ≤ fuel :=
  ⟨(run_scraper_props w fuel url).1, (run_scraper_props w fuel url).2,
    enh_length_le lw dw maxT fuel url db t⟩
